import Mathlib

/-!
Shallow embedding of `src/hd_preprocess.py` (Hyper-Spec preprocessing core).

Conventions of the model:
* Python/numpy floating-point scalars are modelled as exact rationals (`ℚ`);
  the irrational transforms (`np.power(·, 1/2)`, `log1p`, `np.linalg.norm`)
  are modelled over `ℝ` at the point where the code applies them.
* A numpy boolean mask application `a[mask]` is `applyMask`.
* A Python exception is `Except.error`; a rejected (invalid) spectrum is
  `Except.ok none`; a surviving spectrum is `Except.ok (some _)`.
* A spectrum is the seven-slot positional list of the source
  `[bucket, precursor_charge, precursor_mz, identifier, scan,
    retention_time, mz, intensity]`, given field names.
-/

namespace HyperSpec

/-- `hydrogen_mass = 1.00794` from `_precursor_to_interval`. -/
def hydrogenMass : ℚ := 100794 / 100000

/-- `adduct_mass = 1.007825` from `_remove_precursor_peak`. -/
def adductMass : ℚ := 1007825 / 1000000

/-- `c_mass_diff = 1.003355` from `_remove_precursor_peak`. -/
def cMassDiff : ℚ := 1003355 / 1000000

/-- A raw spectrum record (the positional list of the source, named). -/
structure Spectrum where
  bucket : ℤ
  precursor_charge : ℤ
  precursor_mz : ℚ
  identifier : String
  scan : ℤ
  retention_time : ℚ
  mz : List ℚ
  intensity : List ℚ
  deriving Repr, DecidableEq, Inhabited

/-- Numpy boolean-mask indexing `xs[mask]`: keep the entries whose mask
slot is `true` (the code only applies masks whose length equals `xs`). -/
def applyMask {α : Type} (xs : List α) (mask : List Bool) : List α :=
  ((xs.zip mask).filter (fun p => p.2)).map Prod.fst

/-- `_get_mz_mask`: `mask[i] = False` iff `mz[i] < min_mz or mz[i] > max_mz`. -/
def getMzMask (mz : List ℚ) (minMz maxMz : ℚ) : List Bool :=
  mz.map (fun x => if x < minMz ∨ maxMz < x then false else true)

/-- `_set_mz_range`: no-op when both bounds are unset; otherwise a missing
bound defaults to the first/last observed m/z (`spectrum[6][0]`,
`spectrum[6][-1]`, an `IndexError` on an empty array), then both peak
arrays are restricted by the mask. -/
def setMzRange (s : Spectrum) (minMz maxMz : Option ℚ) :
    Except String Spectrum :=
  match minMz, maxMz with
  | none, none => .ok s
  | _, _ => do
    let lo ← match minMz with
      | some v => Except.ok v
      | none => match s.mz.head? with
        | some v => Except.ok v
        | none => Except.error "IndexError: index 0 is out of bounds"
    let hi ← match maxMz with
      | some v => Except.ok v
      | none => match s.mz.getLast? with
        | some v => Except.ok v
        | none => Except.error "IndexError: index -1 is out of bounds"
    let mask := getMzMask s.mz lo hi
    .ok { s with mz := applyMask s.mz mask,
                 intensity := applyMask s.intensity mask }

/-- `_check_spectrum_valid`: at least `min_peaks` peaks and an m/z span of
at least `min_mz_range` (the span is read off the sorted array ends; the
Python `and` short-circuits, so the ends are only read when the length
test passed — the `getLastD`/`headD` defaults are never reached for
`min_peaks ≥ 1`). -/
def checkSpectrumValid (spectrumMz : List ℚ) (minPeaks : ℤ)
    (minMzRange : ℚ) : Bool :=
  decide (minPeaks ≤ (spectrumMz.length : ℤ)) &&
    decide (minMzRange ≤ spectrumMz.getLastD 0 - spectrumMz.headD 0)

/-- `mass_diff`: difference in Dalton, or in ppm of the second value. -/
def massDiff (mz1 mz2 : ℚ) (modeIsDa : Bool) : ℚ :=
  if modeIsDa then mz1 - mz2 else (mz1 - mz2) / mz2 * 10 ^ 6

/-- `mass_diff_mask`: start from all-ones and require, for every removal
m/z, that the (Da or ppm) distance strictly exceeds the tolerance. -/
def massDiffMask (mz removeMz : List ℚ) (tol : ℚ) (modeIsDa : Bool) :
    List Bool :=
  mz.map (fun x =>
    removeMz.all (fun r =>
      decide (tol < if modeIsDa then |r - x| else |(r - x) / r * 10 ^ 6|)))

/-- Python `range(c, 0, -1)`: the integers `c, c-1, ..., 1`; empty when
`c ≤ 0`. -/
def rangeDown (c : ℤ) : List ℤ :=
  if c ≤ 0 then [] else (List.range c.toNat).map (fun i : ℕ => c - (i : ℤ))

/-- The removal m/z list of `_remove_precursor_peak`:
`(neutral_mass + iso * c_mass_diff) / charge + adduct_mass` for
`charge in range(spectrum[1], 0, -1)` and `iso in range(isotope + 1)`,
with `neutral_mass = (spectrum[2] - adduct_mass) * spectrum[1]`. -/
def removeMzList (s : Spectrum) (isotope : ℕ) : List ℚ :=
  let neutralMass := (s.precursor_mz - adductMass) * (s.precursor_charge : ℚ)
  (rangeDown s.precursor_charge).flatMap (fun charge =>
    (List.range (isotope + 1)).map (fun iso : ℕ =>
      (neutralMass + (iso : ℚ) * cMassDiff) / (charge : ℚ) + adductMass))

/-- `_remove_precursor_peak`: mask both peak arrays by `mass_diff_mask`
against the removal m/z list. -/
def removePrecursorPeak (s : Spectrum) (fragmentTolMass : ℚ)
    (fragmentTolMode : String) (isotope : ℕ) : Spectrum :=
  let removeMz := removeMzList s isotope
  let mask := massDiffMask s.mz removeMz fragmentTolMass
    (fragmentTolMode == "Da")
  { s with mz := applyMask s.mz mask,
           intensity := applyMask s.intensity mask }

/-- Index order by descending value with ascending-index tie-break; an
antisymmetric total order, so any sort under it is the unique stable
descending sort. -/
def topDesc (v : List ℚ) (i j : ℕ) : Prop :=
  v.getD j 0 < v.getD i 0 ∨ (v.getD i 0 = v.getD j 0 ∧ i ≤ j)

instance instDecTopDesc (v : List ℚ) : DecidableRel (topDesc v) :=
  fun i j => inferInstanceAs (Decidable (v.getD j 0 < v.getD i 0 ∨
    (v.getD i 0 = v.getD j 0 ∧ i ≤ j)))

/-- `bn.argpartition(-intensity, k)[:k]` when `k < len`, else
`np.arange(len)`: the indices of the `k` largest intensities.  Bottleneck's
partition leaves the order of ties unspecified; the model breaks ties
deterministically (larger intensity first, then smaller index), which
yields the same multiset of selected intensities as any valid partition. -/
def topKIdx (v : List ℚ) (k : ℕ) : List ℕ :=
  if v.length ≤ k then List.range v.length
  else ((List.range v.length).insertionSort (topDesc v)).take k

/-- `get_intensity_mask`: select the top-`k` indices, scale `min_intensity`
by the maximum intensity within that selection (`ValueError` on an empty
selection, as for `numpy.max` of a zero-size array), and keep exactly the
selected peaks whose intensity is strictly above the scaled threshold. -/
def getIntensityMask (intensity : List ℚ) (minIntensity : ℚ) (k : ℕ) :
    Except String (List Bool) :=
  let top := topKIdx intensity k
  match (top.map (fun i => intensity.getD i 0)).max? with
  | none => .error "ValueError: zero-size array to reduction operation"
  | some m =>
    let threshold := minIntensity * m
    .ok ((List.range intensity.length).map (fun i =>
      decide (i ∈ top ∧ threshold < intensity.getD i 0)))

/-- `_filter_intensity`: `max_num_peaks` defaults to the current peak
count; both peak arrays are restricted by `get_intensity_mask`. -/
def filterIntensity (s : Spectrum) (minIntensity : ℚ)
    (maxNumPeaks : Option ℕ) : Except String Spectrum := do
  let k := maxNumPeaks.getD s.intensity.length
  let mask ← getIntensityMask s.intensity minIntensity k
  .ok { s with mz := applyMask s.mz mask,
               intensity := applyMask s.intensity mask }

/-- Python-3 `round`: round half to even (also numba/numpy semantics). -/
def pyRound (q : ℚ) : ℤ :=
  if q - ⌊q⌋ < 1 / 2 then ⌊q⌋
  else if 1 / 2 < q - ⌊q⌋ then ⌊q⌋ + 1
  else if ⌊q⌋ % 2 = 0 then ⌊q⌋ else ⌊q⌋ + 1

/-- `_precursor_to_interval`:
`round(((mz - hydrogen_mass) * max(abs(charge), 1)) / cluster_width)`
floor-divided by `interval_width`. -/
def precursorToInterval (mz : ℚ) (charge : ℤ) (intervalWidth : ℤ)
    (clusterWidth : ℚ) : ℤ :=
  let neutralMass := (mz - hydrogenMass) * ((max |charge| 1 : ℤ) : ℚ)
  Int.fdiv (pyRound (neutralMass / clusterWidth)) intervalWidth

/-- Bucket assignment transcribed from the words of the specification:
neutral mass `(precursor_mz − proton_mass) × max(|charge|, 1)`, rounded to
the nearest integer after division by `cluster_width`, then integer
division by `interval_width`. -/
def bucketSpec (mz : ℚ) (charge : ℤ) (intervalWidth : ℤ)
    (clusterWidth : ℚ) : ℤ :=
  Int.fdiv (pyRound ((mz - hydrogenMass) * ((max |charge| 1 : ℤ) : ℚ) /
    clusterWidth)) intervalWidth

/-- Index order by ascending value with ascending-index tie-break. -/
def ascVal (v : List ℚ) (i j : ℕ) : Prop :=
  v.getD i 0 < v.getD j 0 ∨ (v.getD i 0 = v.getD j 0 ∧ i ≤ j)

instance instDecAscVal (v : List ℚ) : DecidableRel (ascVal v) :=
  fun i j => inferInstanceAs (Decidable (v.getD i 0 < v.getD j 0 ∨
    (v.getD i 0 = v.getD j 0 ∧ i ≤ j)))

/-- `np.argsort(intensity)` (ascending indices).  Numpy's default
quicksort leaves tie order unspecified; the model ties stably by index. -/
def argsortAsc (v : List ℚ) : List ℕ :=
  (List.range v.length).insertionSort (ascVal v)

/-- `_scale_intensity`: `root` is `x ** (1/degree)`, `log` is
`log1p(x) / log(base)`, `rank` is `max_rank - argsort(argsort(x)[::-1])`
(a `ValueError` when `max_rank` is below the peak count), anything else is
left untouched; an optional final rescale makes the maximum equal
`max_intensity`. -/
noncomputable def scaleIntensity (v : List ℚ) (scaling : Option String)
    (maxIntensity : Option ℚ) (degree : ℕ) (base : ℕ)
    (maxRank : Option ℕ) : Except String (List ℝ) := do
  let scaled : List ℝ ←
    if scaling == some "root" then
      .ok (v.map (fun x : ℚ => (x : ℝ) ^ ((1 : ℝ) / (degree : ℝ))))
    else if scaling == some "log" then
      .ok (v.map (fun x : ℚ =>
        Real.log (1 + (x : ℝ)) / Real.log (base : ℝ)))
    else if scaling == some "rank" then
      let mr := maxRank.getD v.length
      if mr < v.length then
        .error "ValueError: max_rank should be greater than or equal to the number of peaks"
      else
        .ok ((List.range v.length).map (fun j : ℕ =>
          (mr : ℝ) - (((argsortAsc v).reverse).indexOf j : ℝ)))
    else .ok (v.map (fun x : ℚ => (x : ℝ)))
  match maxIntensity with
  | none => .ok scaled
  | some m =>
    match scaled.max? with
    | none => .error "ValueError: zero-size array to reduction operation"
    | some mx => .ok (scaled.map (fun x => x * (m : ℝ) / mx))

/-- `_norm_intensity`: divide by the Euclidean norm
`np.linalg.norm(intensity)`; there is no zero-norm guard in the source. -/
noncomputable def normIntensity (v : List ℝ) : List ℝ :=
  v.map (fun x => x / Real.sqrt ((v.map (fun y => y ^ 2)).sum))

/-- The configuration surface consumed by the preprocessing core. -/
structure Config where
  cluster_charges : List ℤ
  min_peaks : ℤ
  min_mz_range : ℚ
  mz_interval : ℤ
  min_mz : Option ℚ
  max_mz : Option ℚ
  remove_precursor_tol : Option ℚ
  min_intensity : Option ℚ
  max_peaks_used : Option ℕ
  scaling : Option String
  cluster_width : ℚ
  checkpoint : String
  deriving Repr, DecidableEq, Inhabited

/-- A fully processed spectrum record: same positional layout, the bucket
slot populated and the intensity array carried over `ℝ` after scaling and
normalization. -/
structure ProcSpectrum where
  bucket : ℤ
  precursor_charge : ℤ
  precursor_mz : ℚ
  identifier : String
  scan : ℤ
  retention_time : ℚ
  mz : List ℚ
  intensity : List ℝ
  deriving Inhabited

/-- The rational-valued front of the loop body of
`preprocess_read_spectra_list` (steps: m/z range restriction, validity,
precursor removal, validity, intensity filter, validity).  `Except.ok
none` is a spectrum recorded in `invalid_spec_list` and later dropped;
the second validity check runs only when a removal tolerance is set, and
the filter runs when `min_intensity` or `max_peaks_used` is set (a unset
`min_intensity` then defaults to `0`). -/
def processOneQ (cfg : Config) (s : Spectrum) :
    Except String (Option Spectrum) :=
  match setMzRange s cfg.min_mz cfg.max_mz with
  | .error e => .error e
  | .ok s1 =>
    if ¬ checkSpectrumValid s1.mz cfg.min_peaks cfg.min_mz_range then
      .ok none
    else
      let step2 : Option Spectrum :=
        match cfg.remove_precursor_tol with
        | none => some s1
        | some tol =>
          let t := removePrecursorPeak s1 tol "Da" 0
          if checkSpectrumValid t.mz cfg.min_peaks cfg.min_mz_range
          then some t else none
      match step2 with
      | none => .ok none
      | some s2 =>
        if cfg.min_intensity.isSome || cfg.max_peaks_used.isSome then
          match filterIntensity s2 (cfg.min_intensity.getD 0)
              cfg.max_peaks_used with
          | .error e => .error e
          | .ok s3 =>
            if checkSpectrumValid s3.mz cfg.min_peaks cfg.min_mz_range
            then .ok (some s3) else .ok none
        else .ok (some s2)

/-- The tail of the loop body of `preprocess_read_spectra_list` on a
spectrum that survived all validity checks: scale
(`_scale_intensity(intensity, scaling, max_rank=max_peaks_used)`),
normalize, assign the bucket, and right-pad both arrays with `-1` up to
`max_peaks_used` when `pad_size = max_peaks_used - len(mz)` is nonzero
(`pad_size` is a `TypeError` when `max_peaks_used` is `None`, and a
negative pad width is a `ValueError` in `np.pad`). -/
noncomputable def finishSpectrum (cfg : Config) (t : Spectrum) :
    Except String ProcSpectrum := do
  let scaled ← scaleIntensity t.intensity cfg.scaling none 2 2
    cfg.max_peaks_used
  let normed := normIntensity scaled
  let interval := precursorToInterval t.precursor_mz t.precursor_charge
    cfg.mz_interval cfg.cluster_width
  match cfg.max_peaks_used with
  | none => .error "TypeError: unsupported operand type(s) for -"
  | some k =>
    let padSize : ℤ := (k : ℤ) - (t.mz.length : ℤ)
    if padSize = 0 then
      .ok ⟨interval, t.precursor_charge, t.precursor_mz, t.identifier,
        t.scan, t.retention_time, t.mz, normed⟩
    else if padSize < 0 then
      .error "ValueError: index cannot contain negative values"
    else
      .ok ⟨interval, t.precursor_charge, t.precursor_mz, t.identifier,
        t.scan, t.retention_time,
        t.mz ++ List.replicate padSize.toNat (-1),
        normed ++ List.replicate padSize.toNat (-1)⟩

/-- One iteration of the loop of `preprocess_read_spectra_list`:
`Except.ok none` is a rejected spectrum, `Except.ok (some _)` a
surviving one, `Except.error` an uncaught Python exception. -/
noncomputable def processOne (cfg : Config) (s : Spectrum) :
    Except String (Option ProcSpectrum) :=
  match processOneQ cfg s with
  | .error e => .error e
  | .ok none => .ok none
  | .ok (some t) =>
    match finishSpectrum cfg t with
    | .error e => .error e
    | .ok r => .ok (some r)

/-- `preprocess_read_spectra_list`: process every spectrum of one file's
parse result and drop the invalid ones. -/
noncomputable def preprocessReadSpectraList (cfg : Config)
    (spectraList : List Spectrum) : Except String (List ProcSpectrum) := do
  let res ← spectraList.mapM (processOne cfg)
  .ok (res.filterMap id)

/-- One row of the spectra metadata dataframe (columns
`bucket, precursor_charge, precursor_mz, identifier, scan,
retention_time`). -/
structure MetaRow where
  bucket : ℤ
  precursor_charge : ℤ
  precursor_mz : ℚ
  identifier : String
  scan : ℤ
  retention_time : ℚ
  deriving Repr, DecidableEq, Inhabited

/-- Two's-complement wraparound of `numpy.astype` to a signed `w`-bit
integer. -/
def toIntWidth (w : ℕ) (z : ℤ) : ℤ :=
  (z + 2 ^ (w - 1)) % 2 ^ w - 2 ^ (w - 1)

/-- `astype(np.int8)`. -/
def toInt8 (z : ℤ) : ℤ := toIntWidth 8 z

/-- `astype(np.int32)`. -/
def toInt32 (z : ℤ) : ℤ := toIntWidth 32 z

/-- The encoded-hvs array persisted by the checkpoint manager; the core
treats it as opaque binary state. -/
abbrev Hvs := List (List ℚ)

/-- The content of one checkpoint artifact on disk. -/
inductive FileData where
  | parquet (rows : List MetaRow)
  | npy (arr : Hvs)
  deriving Repr, DecidableEq, Inhabited

/-- The file system visible to the checkpoint manager: file name to
content. -/
abbrev Store := List (String × FileData)

/-- Write (create or overwrite) one file. -/
def storeWrite (st : Store) (name : String) (d : FileData) : Store :=
  (name, d) :: st.filter (fun p => !(p.1 == name))

/-- `load_checkpoint`: read each artifact independently when it exists
(a present file of the wrong format raises), log success only when both
halves loaded, and return the pair regardless. -/
def loadCheckpoint (checkpoint : String) (st : Store) :
    Except String (Option (List MetaRow) × Option Hvs × String) := do
  let ckpParquetFile := checkpoint ++ "_meta.ckp"
  let ckpHvsFile := checkpoint ++ "_hvs.ckp"
  let spectraMetaDf ← match st.lookup ckpParquetFile with
    | none => Except.ok (none : Option (List MetaRow))
    | some (.parquet rows) => Except.ok (some rows)
    | some (.npy _) => Except.error "ArrowInvalid: Not a Parquet file"
  let spectraHvs ← match st.lookup ckpHvsFile with
    | none => Except.ok (none : Option Hvs)
    | some (.npy arr) => Except.ok (some arr)
    | some (.parquet _) => Except.error "ValueError: Cannot load file"
  let msg := if spectraMetaDf.isSome && spectraHvs.isSome then
      "Successfully restored checkpoints!"
    else "Incomplete checkpoints!"
  .ok (spectraMetaDf, spectraHvs, msg)

/-- `save_checkpoint`: persist the metadata table and the hvs array as two
artifacts under the common `config.checkpoint` prefix, overwriting. -/
def saveCheckpoint (spectraMeta : List MetaRow) (spectraHvs : Hvs)
    (checkpoint : String) (st : Store) : Store :=
  storeWrite
    (storeWrite st (checkpoint ++ "_meta" ++ ".ckp") (.parquet spectraMeta))
    (checkpoint ++ "_hvs" ++ ".ckp") (.npy spectraHvs)

/-- A numpy array that is either 1-dimensional (as `np.array([])` of an
empty row list is) or a 2-dimensional row matrix. -/
inductive NpArray (α : Type) where
  | d1 (xs : List α)
  | d2 (rows : List (List α))
  deriving DecidableEq

/-- `np.array(rows)`: 1-D and empty when there are no rows, else the 2-D
row matrix. -/
def mkNp {α : Type} (rows : List (List α)) : NpArray α :=
  if rows.isEmpty then .d1 [] else .d2 rows

/-- Row selection `a[mask, :]`: an `IndexError` on a 1-D array (too many
indices). -/
def boolIndex2D {α : Type} (a : NpArray α) (mask : List Bool) :
    Except String (NpArray α) :=
  match a with
  | .d1 _ => .error "IndexError: too many indices for array"
  | .d2 rows => .ok (.d2 (applyMask rows mask))

/-- Integer fancy indexing `a[idx]` along the first axis. -/
def fancyIndex {α : Type} (a : NpArray α) (idx : List ℕ) : NpArray α :=
  match a with
  | .d1 xs => .d1 (idx.filterMap xs.get?)
  | .d2 rows => .d2 (idx.filterMap rows.get?)

/-- Index order by a primary then a secondary integer key, with
ascending-index tie-break (the stable order). -/
def lexIdxLe (primaryKey secondaryKey : List ℤ) (i j : ℕ) : Prop :=
  primaryKey.getD i 0 < primaryKey.getD j 0 ∨
    (primaryKey.getD i 0 = primaryKey.getD j 0 ∧
      (secondaryKey.getD i 0 < secondaryKey.getD j 0 ∨
        (secondaryKey.getD i 0 = secondaryKey.getD j 0 ∧ i ≤ j)))

instance instDecLexIdxLe (primaryKey secondaryKey : List ℤ) :
    DecidableRel (lexIdxLe primaryKey secondaryKey) :=
  fun i j => inferInstanceAs (Decidable (_ ∨ (_ ∧ (_ ∨ (_ ∧ i ≤ j)))))

/-- `np.lexsort((secondary, primary))`: numpy sorts by the LAST key of the
tuple first; the sort is stable, modelled by tying on the original
index. -/
def npLexsort2 (secondaryKey primaryKey : List ℤ) : List ℕ :=
  (List.range primaryKey.length).insertionSort
    (lexIdxLe primaryKey secondaryKey)

/-- `sort_spectra_meta_data`: one index permutation
`np.lexsort((precursor_charge, bucket))` applied to the metadata rows and
to both dense arrays. -/
def sortSpectraMetaData {α β : Type} (spectraMeta : List MetaRow)
    (spectraMz : NpArray α) (spectraIntensity : NpArray β) :
    List MetaRow × NpArray α × NpArray β :=
  let idx := npLexsort2 (spectraMeta.map (fun r => r.precursor_charge))
    (spectraMeta.map (fun r => r.bucket))
  (idx.filterMap spectraMeta.get?, fancyIndex spectraMz idx,
    fancyIndex spectraIntensity idx)

/-- `load_process_spectra_parallel` at the data level: one task per input
file (a file is its parsed list of raw spectra), gather, concatenate into
the metadata columns and the two dense arrays, narrow the numeric dtypes,
filter by the allowed-charge set when it is non-empty (inferring it
otherwise), and sort.  A worker exception propagates and aborts the
aggregation. -/
noncomputable def loadProcessSpectraParallel (cfg : Config)
    (inputFiles : List (List Spectrum)) :
    Except String (List MetaRow × NpArray ℚ × NpArray ℝ) := do
  let readSpectraList ← inputFiles.mapM (preprocessReadSpectraList cfg)
  let survivors := readSpectraList.flatten
  let spectraMz : NpArray ℚ := mkNp (survivors.map (fun r => r.mz))
  let spectraIntensity : NpArray ℝ :=
    mkNp (survivors.map (fun r => r.intensity))
  let spectraMeta : List MetaRow := survivors.map (fun r =>
    ⟨toInt32 r.bucket, toInt8 r.precursor_charge, r.precursor_mz,
      r.identifier, toInt32 r.scan, r.retention_time⟩)
  if cfg.cluster_charges.isEmpty then
    .ok (sortSpectraMetaData spectraMeta spectraMz spectraIntensity)
  else do
    let validChargeIdx := spectraMeta.map (fun r =>
      decide (r.precursor_charge ∈ cfg.cluster_charges))
    let mzKept ← boolIndex2D spectraMz validChargeIdx
    let intensityKept ← boolIndex2D spectraIntensity validChargeIdx
    .ok (sortSpectraMetaData (applyMask spectraMeta validChargeIdx)
      mzKept intensityKept)

/-- The (charge, bucket) lexicographic row order with charge as primary
key, as the specification describes the canonical dataset order. -/
def chargeBucketLeB (a b : MetaRow) : Bool :=
  decide (a.precursor_charge < b.precursor_charge) ||
    (decide (a.precursor_charge = b.precursor_charge) &&
      decide (a.bucket ≤ b.bucket))

/-- Whether a row list is non-decreasing in (charge, bucket) lexicographic
order with charge as the primary key. -/
def chargeBucketSorted : List MetaRow → Bool
  | [] => true
  | [_] => true
  | a :: b :: rest => chargeBucketLeB a b && chargeBucketSorted (b :: rest)

section MaskLemmas

variable {α β : Type}

lemma applyMask_nil_left (m : List Bool) : applyMask ([] : List α) m = [] := by
  simp [applyMask]

lemma applyMask_nil_mask (xs : List α) : applyMask xs [] = [] := by
  simp [applyMask]

lemma applyMask_cons (x : α) (xs : List α) (b : Bool) (m : List Bool) :
    applyMask (x :: xs) (b :: m) =
      if b then x :: applyMask xs m else applyMask xs m := by
  cases b <;> simp [applyMask]

lemma mem_of_mem_applyMask {xs : List α} {m : List Bool} {x : α}
    (h : x ∈ applyMask xs m) : x ∈ xs := by
  unfold applyMask at h
  obtain ⟨p, hp, rfl⟩ := List.mem_map.1 h
  exact (List.of_mem_zip (List.mem_filter.1 hp).1).1

lemma applyMask_map_self (xs : List α) (f : α → Bool) :
    applyMask xs (xs.map f) = xs.filter f := by
  unfold applyMask
  rw [show xs.zip (xs.map f) = xs.map (fun a => (a, f a)) by
    simpa using List.zip_map' id f xs]
  rw [List.filter_map, List.map_map]
  simp [Function.comp_def]

lemma applyMask_length_eq {xs : List α} {ys : List β} {m : List Bool}
    (h : xs.length = ys.length) :
    (applyMask xs m).length = (applyMask ys m).length := by
  induction m generalizing xs ys with
  | nil => simp [applyMask_nil_mask]
  | cons b m ih =>
    cases xs with
    | nil => cases ys with
      | nil => rfl
      | cons y ys => simp at h
    | cons x xs =>
      cases ys with
      | nil => simp at h
      | cons y ys =>
        simp only [List.length_cons, Nat.succ.injEq] at h
        cases b <;> simp [applyMask_cons, ih h]

lemma applyMask_replicate_true (xs : List α) :
    applyMask xs (List.replicate xs.length true) = xs := by
  induction xs with
  | nil => rfl
  | cons x xs ih => simp [List.replicate_succ, applyMask_cons, ih]

lemma applyMask_range_map_mem {v : List α} {f : ℕ → Bool} {x : α}
    (h : x ∈ applyMask v ((List.range v.length).map f)) :
    ∃ i, v.get? i = some x ∧ f i = true := by
  induction v generalizing f with
  | nil => simp [applyMask_nil_left] at h
  | cons a v ih =>
    rw [List.length_cons, List.range_succ_eq_map, List.map_cons,
      List.map_map, applyMask_cons] at h
    by_cases h0 : f 0
    · rw [if_pos h0] at h
      rcases List.mem_cons.1 h with rfl | h
      · exact ⟨0, rfl, h0⟩
      · obtain ⟨i, hi, hf⟩ := ih (f := f ∘ Nat.succ) h
        exact ⟨i + 1, hi, hf⟩
    · rw [if_neg h0] at h
      obtain ⟨i, hi, hf⟩ := ih (f := f ∘ Nat.succ) h
      exact ⟨i + 1, hi, hf⟩

lemma applyMask_range_map_length (v : List α) (f : ℕ → Bool) :
    (applyMask v ((List.range v.length).map f)).length =
      ((List.range v.length).filter f).length := by
  induction v generalizing f with
  | nil => simp [applyMask_nil_left]
  | cons a v ih =>
    rw [List.length_cons, List.range_succ_eq_map, List.map_cons,
      List.map_map, applyMask_cons, List.filter_cons]
    by_cases h0 : f 0
    · rw [if_pos h0, if_pos h0]
      simp only [List.length_cons]
      rw [ih (f := f ∘ Nat.succ), List.filter_map, List.length_map]
    · rw [if_neg h0, if_neg h0]
      rw [ih (f := f ∘ Nat.succ), List.filter_map, List.length_map]

lemma length_filter_le_of_mem_nodup {l t : List ℕ} {f : ℕ → Bool}
    (hf : ∀ i, f i = true → i ∈ t) (hl : l.Nodup) :
    (l.filter f).length ≤ t.length :=
  ((hl.filter f).subperm
    (fun x hx => hf x (List.of_mem_filter hx))).length_le

end MaskLemmas

section RangeDownLemmas

lemma mem_rangeDown {c q : ℤ} : q ∈ rangeDown c ↔ 1 ≤ q ∧ q ≤ c := by
  unfold rangeDown
  by_cases hc : c ≤ 0
  · rw [if_pos hc]
    simp only [List.not_mem_nil, false_iff, not_and, not_le]
    intro h
    omega
  · rw [if_neg hc, List.mem_map]
    constructor
    · rintro ⟨i, hi, rfl⟩
      rw [List.mem_range] at hi
      have h4 : ((c.toNat) : ℤ) = c := Int.toNat_of_nonneg (by omega)
      have hi' : (i : ℤ) < c := by
        rw [← h4]
        exact_mod_cast hi
      constructor <;> omega
    · rintro ⟨h1, h2⟩
      have h3 : ((c - q).toNat : ℤ) = c - q := Int.toNat_of_nonneg (by omega)
      have h4 : ((c.toNat) : ℤ) = c := Int.toNat_of_nonneg (by omega)
      refine ⟨(c - q).toNat, ?_, by omega⟩
      rw [List.mem_range]
      have h5 : ((c - q).toNat : ℤ) < (c.toNat : ℤ) := by omega
      exact_mod_cast h5

end RangeDownLemmas

section MaxLemmas

lemma le_foldl_max (a : ℚ) (t : List ℚ) : a ≤ t.foldl max a := by
  induction t generalizing a with
  | nil => exact le_refl a
  | cons x t ih =>
    calc a ≤ max a x := le_max_left a x
    _ ≤ t.foldl max (max a x) := ih (max a x)

lemma mem_le_foldl_max {b : ℚ} {t : List ℚ} (hb : b ∈ t) :
    ∀ a : ℚ, b ≤ t.foldl max a := by
  induction t with
  | nil => cases hb
  | cons x t ih =>
    intro a
    rcases List.mem_cons.1 hb with rfl | hb2
    · exact le_trans (le_max_right a b) (le_foldl_max _ _)
    · exact ih hb2 (max a x)

lemma le_of_max?_eq_some {l : List ℚ} {m b : ℚ} (h : l.max? = some m)
    (hb : b ∈ l) : b ≤ m := by
  cases l with
  | nil => cases hb
  | cons a t =>
    have hm : m = t.foldl max a := by
      have : (a :: t).max? = some (t.foldl max a) := rfl
      rw [this] at h
      exact (Option.some.inj h).symm
    subst hm
    rcases List.mem_cons.1 hb with rfl | hb
    · exact le_foldl_max _ _
    · exact mem_le_foldl_max hb _

lemma max?_mem_rat {l : List ℚ} {m : ℚ} (h : l.max? = some m) : m ∈ l :=
  List.max?_mem (fun a b => max_choice a b) h

end MaxLemmas

section TopKLemmas

lemma topKIdx_length_le (v : List ℚ) (k : ℕ) : (topKIdx v k).length ≤ k := by
  unfold topKIdx
  split_ifs with h
  · simpa using h
  · exact List.length_take_le _ _

lemma topKIdx_mem_lt {v : List ℚ} {k i : ℕ} (h : i ∈ topKIdx v k) :
    i < v.length := by
  unfold topKIdx at h
  split_ifs at h with hk
  · exact List.mem_range.1 h
  · have h1 : i ∈ (List.range v.length).insertionSort (topDesc v) :=
      List.mem_of_mem_take h
    exact List.mem_range.1 ((List.perm_insertionSort (topDesc v) _).mem_iff.1 h1)

lemma topKIdx_nodup (v : List ℚ) (k : ℕ) : (topKIdx v k).Nodup := by
  unfold topKIdx
  split_ifs with h
  · exact List.nodup_range _
  · exact ((List.perm_insertionSort (topDesc v) _).nodup_iff.2
      (List.nodup_range _)).sublist (List.take_sublist _ _)

end TopKLemmas

section IntensityMaskLemmas

lemma getIntensityMask_ok {v : List ℚ} {c : ℚ} {k : ℕ} {mask : List Bool}
    (h : getIntensityMask v c k = .ok mask) :
    ∃ m, ((topKIdx v k).map (fun i => v.getD i 0)).max? = some m ∧
      mask = (List.range v.length).map (fun i =>
        decide (i ∈ topKIdx v k ∧ c * m < v.getD i 0)) := by
  simp only [getIntensityMask] at h
  cases hmax : ((topKIdx v k).map (fun i => v.getD i 0)).max? with
  | none =>
    rw [hmax] at h
    exact absurd h (by simp)
  | some m =>
    rw [hmax] at h
    simp only [Except.ok.injEq] at h
    exact ⟨m, rfl, h.symm⟩

end IntensityMaskLemmas

section ExceptLemmas

@[simp] lemma ok_bind {ε α β : Type} (a : α) (f : α → Except ε β) :
    (Except.ok a >>= f : Except ε β) = f a := rfl

@[simp] lemma error_bind {ε α β : Type} (e : ε) (f : α → Except ε β) :
    (Except.error e >>= f : Except ε β) = Except.error e := rfl

end ExceptLemmas

section PipelineLemmas

/-- The data-model invariant carried through the per-spectrum pipeline:
aligned peak arrays with non-negative entries. -/
def SpecInv (s : Spectrum) : Prop :=
  s.mz.length = s.intensity.length ∧
    (∀ x ∈ s.mz, 0 ≤ x) ∧ ∀ x ∈ s.intensity, 0 ≤ x

lemma maskPair_specinv {s : Spectrum} (m : List Bool) (h : SpecInv s) :
    SpecInv { s with mz := applyMask s.mz m,
                     intensity := applyMask s.intensity m } :=
  ⟨applyMask_length_eq h.1,
    fun x hx => h.2.1 x (mem_of_mem_applyMask hx),
    fun x hx => h.2.2 x (mem_of_mem_applyMask hx)⟩

lemma setMzRange_ok_inv {s s1 : Spectrum} {a b : Option ℚ}
    (h : setMzRange s a b = .ok s1) :
    s1 = s ∨ ∃ m : List Bool, s1.mz = applyMask s.mz m ∧
      s1.intensity = applyMask s.intensity m := by
  cases a with
  | none =>
    cases b with
    | none =>
      left
      simp only [setMzRange] at h
      exact (Except.ok.inj h).symm
    | some hi =>
      right
      simp only [setMzRange] at h
      cases hh : s.mz.head? with
      | none =>
        rw [hh] at h
        cases h
      | some lo =>
        rw [hh] at h
        simp only [ok_bind] at h
        obtain rfl := (Except.ok.inj h).symm
        exact ⟨getMzMask s.mz lo hi, rfl, rfl⟩
  | some lo =>
    cases b with
    | none =>
      right
      simp only [setMzRange] at h
      cases hh : s.mz.getLast? with
      | none =>
        rw [hh] at h
        cases h
      | some hi =>
        rw [hh] at h
        simp only [ok_bind] at h
        obtain rfl := (Except.ok.inj h).symm
        exact ⟨getMzMask s.mz lo hi, rfl, rfl⟩
    | some hi =>
      right
      simp only [setMzRange, ok_bind] at h
      obtain rfl := (Except.ok.inj h).symm
      exact ⟨getMzMask s.mz lo hi, rfl, rfl⟩

lemma setMzRange_specinv {s s1 : Spectrum} {a b : Option ℚ}
    (h : setMzRange s a b = .ok s1) (hinv : SpecInv s) : SpecInv s1 := by
  rcases setMzRange_ok_inv h with rfl | ⟨m, hm, hi⟩
  · exact hinv
  · exact ⟨by rw [hm, hi]; exact applyMask_length_eq hinv.1,
      fun x hx => hinv.2.1 x (mem_of_mem_applyMask (hm ▸ hx)),
      fun x hx => hinv.2.2 x (mem_of_mem_applyMask (hi ▸ hx))⟩

lemma removePrecursorPeak_specinv (s : Spectrum) (tol : ℚ) (mode : String)
    (iso : ℕ) (hinv : SpecInv s) :
    SpecInv (removePrecursorPeak s tol mode iso) := by
  simp only [removePrecursorPeak]
  exact maskPair_specinv _ hinv

lemma filterIntensity_ok_inv {s2 s3 : Spectrum} {c : ℚ} {kopt : Option ℕ}
    (h : filterIntensity s2 c kopt = .ok s3) (hinv : SpecInv s2) :
    SpecInv s3 ∧ s3.mz.length ≤ kopt.getD s2.intensity.length := by
  simp only [filterIntensity] at h
  cases hm : getIntensityMask s2.intensity c (kopt.getD s2.intensity.length)
    with
  | error e =>
    rw [hm] at h
    cases h
  | ok mask =>
    rw [hm] at h
    simp only [ok_bind, Except.ok.injEq] at h
    obtain rfl := h.symm
    obtain ⟨m, _, hmask⟩ := getIntensityMask_ok hm
    refine ⟨maskPair_specinv mask hinv, ?_⟩
    show (applyMask s2.mz mask).length ≤ _
    rw [applyMask_length_eq hinv.1, hmask, applyMask_range_map_length]
    refine le_trans (length_filter_le_of_mem_nodup ?_ (List.nodup_range _))
      (topKIdx_length_le s2.intensity (kopt.getD s2.intensity.length))
    intro i hi
    rw [decide_eq_true_eq] at hi
    exact hi.1

lemma processOneQ_inv {cfg : Config} {s t : Spectrum} (hinv : SpecInv s)
    (hq : processOneQ cfg s = .ok (some t)) :
    SpecInv t ∧ ∀ k, cfg.max_peaks_used = some k → t.mz.length ≤ k := by
  have hstep4 : ∀ s2 : Spectrum, SpecInv s2 →
      ((if cfg.min_intensity.isSome || cfg.max_peaks_used.isSome then
        match filterIntensity s2 (cfg.min_intensity.getD 0)
            cfg.max_peaks_used with
        | .error e => .error e
        | .ok s3 =>
          if checkSpectrumValid s3.mz cfg.min_peaks cfg.min_mz_range
          then .ok (some s3) else .ok none
      else .ok (some s2)) = Except.ok (some t)) →
      SpecInv t ∧ ∀ k, cfg.max_peaks_used = some k → t.mz.length ≤ k := by
    intro s2 hinv2 hq2
    split at hq2
    · rename_i hfb
      split at hq2
      · cases hq2
      · rename_i s3 hfi
        split at hq2
        · rename_i hv3
          obtain rfl : s3 = t := by simpa using hq2
          obtain ⟨hinv3, hlen3⟩ := filterIntensity_ok_inv hfi hinv2
          refine ⟨hinv3, fun k hk => ?_⟩
          rw [hk] at hlen3
          exact hlen3
        · simp at hq2
    · rename_i hfb
      obtain rfl : s2 = t := by simpa using hq2
      refine ⟨hinv2, fun k hk => absurd ?_ hfb⟩
      rw [hk]
      simp
  simp only [processOneQ] at hq
  split at hq
  · cases hq
  · rename_i s1 hset
    split at hq
    · simp at hq
    · rename_i hv1
      split at hq
      · simp at hq
      · rename_i s2 hstep2
        have hinv1 : SpecInv s1 := setMzRange_specinv hset hinv
        have hinv2 : SpecInv s2 := by
          split at hstep2
          · obtain rfl : s1 = s2 := by simpa using hstep2
            exact hinv1
          · rename_i tol htol
            split at hstep2
            · obtain rfl := (Option.some.inj hstep2)
              exact removePrecursorPeak_specinv s1 tol "Da" 0 hinv1
            · cases hstep2
        exact hstep4 s2 hinv2 hq

end PipelineLemmas

section GetDLemmas

variable {α : Type}

lemma getD_mem {l : List α} {i : ℕ} (d : α) (h : i < l.length) :
    l.getD i d ∈ l := by
  rw [List.getD_eq_getD_get?]
  cases hg : l.get? i with
  | none =>
    rw [List.get?_eq_none] at hg
    omega
  | some a =>
    simpa using List.get?_mem hg

lemma replicate_getD {n j : ℕ} {a d : α} (h : j < n) :
    (List.replicate n a).getD j d = a := by
  rw [List.getD_eq_getD_get?, List.get?_eq_getElem?, List.getElem?_replicate,
    if_pos h]
  rfl

end GetDLemmas

section FinishLemmas

lemma normIntensity_length (v : List ℝ) :
    (normIntensity v).length = v.length := by
  simp [normIntensity]

lemma normIntensity_nonneg {v : List ℝ} (hv : ∀ x ∈ v, 0 ≤ x) :
    ∀ y ∈ normIntensity v, 0 ≤ y := by
  intro y hy
  simp only [normIntensity, List.mem_map] at hy
  obtain ⟨x, hx, rfl⟩ := hy
  exact div_nonneg (hv x hx) (Real.sqrt_nonneg _)

lemma scaleIntensity_none_ok {v : List ℚ} {sc : Option String} {d b : ℕ}
    {mr : Option ℕ} {scaled : List ℝ}
    (h : scaleIntensity v sc none d b mr = .ok scaled) :
    scaled.length = v.length ∧
    ((∀ x ∈ v, 0 ≤ x) → ∀ y ∈ scaled, 0 ≤ y) := by
  simp only [scaleIntensity] at h
  split at h
  · -- root scaling
    simp only [ok_bind, Except.ok.injEq] at h
    subst h
    refine ⟨by simp, fun hv y hy => ?_⟩
    simp only [List.mem_map] at hy
    obtain ⟨x, hx, rfl⟩ := hy
    exact Real.rpow_nonneg (by exact_mod_cast hv x hx) _
  · split at h
    · -- log scaling
      simp only [ok_bind, Except.ok.injEq] at h
      subst h
      refine ⟨by simp, fun hv y hy => ?_⟩
      simp only [List.mem_map] at hy
      obtain ⟨x, hx, rfl⟩ := hy
      refine div_nonneg (Real.log_nonneg ?_) (Real.log_natCast_nonneg b)
      have hx0 : (0 : ℝ) ≤ (x : ℝ) := by exact_mod_cast hv x hx
      linarith
    · split at h
      · -- rank scaling
        split at h
        · cases h
        · rename_i hmr
          simp only [ok_bind, Except.ok.injEq] at h
          subst h
          refine ⟨by simp, fun _ y hy => ?_⟩
          simp only [List.mem_map, List.mem_range] at hy
          obtain ⟨j, hj, rfl⟩ := hy
          have hjm : j ∈ (argsortAsc v).reverse := by
            rw [List.mem_reverse]
            exact ((List.perm_insertionSort _ _).mem_iff).2
              (List.mem_range.2 hj)
          have hidx : ((argsortAsc v).reverse).indexOf j <
              ((argsortAsc v).reverse).length :=
            List.indexOf_lt_length.2 hjm
          have hrevlen : ((argsortAsc v).reverse).length = v.length := by
            rw [List.length_reverse]
            exact (List.perm_insertionSort _ _).length_eq.trans
              (List.length_range _)
          rw [hrevlen] at hidx
          have hmr' : v.length ≤ mr.getD v.length := le_of_not_lt hmr
          rw [sub_nonneg]
          exact_mod_cast le_trans (le_of_lt hidx) hmr'
      · -- no scaling / unknown mode
        simp only [ok_bind, Except.ok.injEq] at h
        subst h
        refine ⟨by simp, fun hv y hy => ?_⟩
        simp only [List.mem_map] at hy
        obtain ⟨x, hx, rfl⟩ := hy
        exact_mod_cast hv x hx

lemma finishSpectrum_ok {cfg : Config} {t : Spectrum} {s' : ProcSpectrum}
    {k : ℕ} (hk : cfg.max_peaks_used = some k)
    (h : finishSpectrum cfg t = .ok s') :
    ∃ scaled : List ℝ,
      scaleIntensity t.intensity cfg.scaling none 2 2 (some k) =
        .ok scaled ∧
      t.mz.length ≤ k ∧
      s'.mz = t.mz ++ List.replicate (k - t.mz.length) (-1) ∧
      s'.intensity = normIntensity scaled ++
        List.replicate (k - t.mz.length) (-1) := by
  simp only [finishSpectrum, hk] at h
  cases hsc : scaleIntensity t.intensity cfg.scaling none 2 2 (some k) with
  | error e =>
    rw [hsc] at h
    cases h
  | ok scaled =>
    rw [hsc] at h
    simp only [ok_bind] at h
    refine ⟨scaled, rfl, ?_⟩
    split at h
    · rename_i hp0
      have hlenk : t.mz.length = k := by omega
      obtain rfl : s' = _ := (Except.ok.inj h).symm
      refine ⟨le_of_eq hlenk, ?_, ?_⟩ <;>
        simp [hlenk, List.replicate, Nat.sub_self]
    · split at h
      · cases h
      · rename_i hp0 hpneg
        have hle : t.mz.length ≤ k := by omega
        have htn : (((k : ℤ) - (t.mz.length : ℤ))).toNat =
            k - t.mz.length := Int.toNat_sub k t.mz.length
        obtain rfl : s' = _ := (Except.ok.inj h).symm
        exact ⟨hle, by simp [htn], by simp [htn]⟩

end FinishLemmas

section ZeroVectorLemmas

lemma setMzRange_ne_nil_ok (s : Spectrum) (a b : Option ℚ)
    (hne : s.mz ≠ []) : ∃ s1, setMzRange s a b = .ok s1 := by
  cases a with
  | none =>
    cases b with
    | none => exact ⟨s, rfl⟩
    | some hi =>
      cases hh : s.mz.head? with
      | none => exact absurd (List.head?_eq_none_iff.1 hh) hne
      | some lo => exact ⟨_, by simp only [setMzRange, hh, ok_bind]; rfl⟩
  | some lo =>
    cases b with
    | none =>
      cases hh : s.mz.getLast? with
      | none => exact absurd (List.getLast?_eq_none_iff.1 hh) hne
      | some hi => exact ⟨_, by simp only [setMzRange, hh, ok_bind]; rfl⟩
    | some hi => exact ⟨_, rfl⟩

lemma checkSpectrumValid_nil {mp : ℤ} (r : ℚ) (hp : 1 ≤ mp) :
    checkSpectrumValid [] mp r = false := by
  unfold checkSpectrumValid
  simp only [List.length_nil, Bool.and_eq_false_iff]
  left
  rw [decide_eq_false_iff_not]
  intro hcon
  omega

lemma topKIdx_ne_nil {v : List ℚ} {k : ℕ} (hv : v ≠ []) (hk : 1 ≤ k) :
    topKIdx v k ≠ [] := by
  unfold topKIdx
  have hvlen : 1 ≤ v.length := by
    cases v with
    | nil => exact absurd rfl hv
    | cons a l => simp
  split_ifs with h
  · intro hcon
    rw [List.range_eq_nil] at hcon
    omega
  · intro hcon
    have hl := congrArg List.length hcon
    have hslen : ((List.range v.length).insertionSort (topDesc v)).length =
        v.length := by
      rw [(List.perm_insertionSort _ _).length_eq, List.length_range]
    rw [List.length_take, hslen, List.length_nil] at hl
    rcases Nat.min_eq_zero_iff.1 hl with h0 | h0 <;> omega

lemma filterIntensity_zero_vector {s2 : Spectrum} {c : ℚ} {kopt : Option ℕ}
    (hlen : s2.mz.length = s2.intensity.length)
    (hne : s2.intensity ≠ [])
    (hk : 1 ≤ kopt.getD s2.intensity.length)
    (hz : ∀ x ∈ s2.intensity, x = 0) :
    ∃ s3, filterIntensity s2 c kopt = .ok s3 ∧ s3.mz = [] := by
  have htopne : topKIdx s2.intensity (kopt.getD s2.intensity.length) ≠ [] :=
    topKIdx_ne_nil hne hk
  obtain ⟨m, hm⟩ : ∃ m, ((topKIdx s2.intensity
      (kopt.getD s2.intensity.length)).map
      (fun i => s2.intensity.getD i 0)).max? = some m := by
    cases hv : (topKIdx s2.intensity (kopt.getD s2.intensity.length)).map
        (fun i => s2.intensity.getD i 0) with
    | nil => exact absurd (List.map_eq_nil.1 hv) htopne
    | cons a rest => exact ⟨rest.foldl max a, rfl⟩
  have hm0 : m = 0 := by
    obtain ⟨i, hitop, hval⟩ := List.mem_map.1 (max?_mem_rat hm)
    rw [← hval]
    exact hz _ (getD_mem 0 (topKIdx_mem_lt hitop))
  have hfalse : ∀ i : ℕ, (decide (i ∈ topKIdx s2.intensity
      (kopt.getD s2.intensity.length) ∧
      c * m < s2.intensity.getD i 0)) = false := by
    intro i
    rw [decide_eq_false_iff_not]
    rintro ⟨hitop, hlt⟩
    rw [hz _ (getD_mem 0 (topKIdx_mem_lt hitop)), hm0, mul_zero] at hlt
    exact lt_irrefl 0 hlt
  have hgm : getIntensityMask s2.intensity c
      (kopt.getD s2.intensity.length) =
      .ok ((List.range s2.intensity.length).map
        (fun i => decide (i ∈ topKIdx s2.intensity
          (kopt.getD s2.intensity.length) ∧
          c * m < s2.intensity.getD i 0))) := by
    simp only [getIntensityMask, hm]
  have hintempty : applyMask s2.intensity
      ((List.range s2.intensity.length).map
        (fun i => decide (i ∈ topKIdx s2.intensity
          (kopt.getD s2.intensity.length) ∧
          c * m < s2.intensity.getD i 0))) = [] := by
    rw [← List.length_eq_zero, applyMask_range_map_length]
    rw [List.length_eq_zero, List.filter_eq_nil]
    intro a _
    rw [hfalse a]
    simp
  have hmzempty : applyMask s2.mz
      ((List.range s2.intensity.length).map
        (fun i => decide (i ∈ topKIdx s2.intensity
          (kopt.getD s2.intensity.length) ∧
          c * m < s2.intensity.getD i 0))) = [] := by
    rw [← List.length_eq_zero, applyMask_length_eq hlen,
      List.length_eq_zero]
    exact hintempty
  refine ⟨{ s2 with mz := [], intensity := [] }, ?_, rfl⟩
  simp only [filterIntensity, hgm, ok_bind, hmzempty, hintempty]

end ZeroVectorLemmas

/-- Configuration for the C2 witness: one-peak spectra padded to width
2, no precursor removal, `off` scaling. -/
def cfgC2 : Config :=
  Config.mk [] 1 0 1 (some 0) (some 1000) none (some 0) (some 2)
    (some "off") 1 "ckp"

/-- Input spectrum for the C2 witness. -/
def specC2 : Spectrum :=
  Spectrum.mk 0 1 (300794/100000) "a" 1 0 [100] [7]

/-- The pipeline output on `specC2` under `cfgC2`. -/
noncomputable def procC2 : ProcSpectrum :=
  ProcSpectrum.mk 2 1 (300794/100000) "a" 1 0 [100, -1]
    [(7 : ℝ) / Real.sqrt 49, -1]

/-- C5: bucket assignment is the pure function
`round(((precursor_mz - proton_mass) * max(|charge|, 1)) / cluster_width)`
integer-divided by `interval_width` (the code's `round` is
round-half-to-even, a nearest-integer rounding: the rounded value is
within 1/2 of the exact ratio), and identical arguments always yield an
identical bucket. -/
theorem precursorToInterval_formula_and_pure :
    (∀ (mz : ℚ) (charge intervalWidth : ℤ) (clusterWidth : ℚ),
      precursorToInterval mz charge intervalWidth clusterWidth =
        bucketSpec mz charge intervalWidth clusterWidth) ∧
    (∀ q : ℚ, |(pyRound q : ℚ) - q| ≤ 1 / 2) ∧
    (∀ (mz₁ mz₂ : ℚ) (c₁ c₂ iw₁ iw₂ : ℤ) (cw₁ cw₂ : ℚ),
      mz₁ = mz₂ → c₁ = c₂ → iw₁ = iw₂ → cw₁ = cw₂ →
      precursorToInterval mz₁ c₁ iw₁ cw₁ = precursorToInterval mz₂ c₂ iw₂ cw₂) := by
  refine ⟨fun mz charge iw cw => rfl, fun q => ?_, ?_⟩
  · have h0 : (0 : ℚ) ≤ q - ⌊q⌋ := by
      have := Int.floor_le q
      linarith
    have h1 : q - ⌊q⌋ < 1 := by
      have := Int.lt_floor_add_one q
      linarith
    unfold pyRound
    split_ifs with hA hB hC
    · rw [abs_sub_comm, abs_of_nonneg h0]
      linarith
    · push_cast
      rw [abs_of_nonneg (by linarith)]
      linarith
    · rw [abs_sub_comm, abs_of_nonneg h0]
      linarith
    · push_cast
      rw [abs_of_nonneg (by linarith)]
      linarith
  · intro mz₁ mz₂ c₁ c₂ iw₁ iw₂ cw₁ cw₂ h1 h2 h3 h4
    subst h1
    subst h2
    subst h3
    subst h4
    rfl

/-- Witness for C5 at concrete arguments. -/
theorem precursorToInterval_formula_and_pure_witness :
    precursorToInterval 500 2 1 1 = bucketSpec 500 2 1 1 ∧
    precursorToInterval 500 2 1 1 = precursorToInterval 500 2 1 1 :=
  ⟨precursorToInterval_formula_and_pure.1 500 2 1 1,
    precursorToInterval_formula_and_pure.2.2 500 500 2 2 1 1 1 1
      rfl rfl rfl rfl⟩

/-- C4: in Da mode with an observed charge `c ≥ 1`, the removal m/z list
is exactly `{(neutral_mass + iso * c_mass_diff) / q + adduct_mass}` for
charges `q ∈ 1..c` and isotopes `iso ∈ 0..isotope`, with
`neutral_mass = (precursor_mz - adduct_mass) * c`; and no peak retained by
`_remove_precursor_peak` lies within the tolerance of any removal m/z. -/
theorem removePrecursorPeak_da_sound (s : Spectrum) (tol : ℚ) (isotope : ℕ)
    (hc : 1 ≤ s.precursor_charge) :
    (∀ r : ℚ, r ∈ removeMzList s isotope ↔
      ∃ q : ℤ, 1 ≤ q ∧ q ≤ s.precursor_charge ∧ ∃ iso : ℕ, iso ≤ isotope ∧
        r = ((s.precursor_mz - adductMass) * (s.precursor_charge : ℚ) +
          (iso : ℚ) * cMassDiff) / (q : ℚ) + adductMass) ∧
    ∀ x ∈ (removePrecursorPeak s tol "Da" isotope).mz,
      ∀ r ∈ removeMzList s isotope, ¬ |r - x| ≤ tol := by
  constructor
  · intro r
    unfold removeMzList
    rw [List.mem_flatMap]
    constructor
    · rintro ⟨q, hq, hr⟩
      rw [List.mem_map] at hr
      obtain ⟨iso, hiso, rfl⟩ := hr
      rw [List.mem_range, Nat.lt_succ_iff] at hiso
      exact ⟨q, (mem_rangeDown.1 hq).1, (mem_rangeDown.1 hq).2, iso, hiso, rfl⟩
    · rintro ⟨q, hq1, hq2, iso, hiso, rfl⟩
      refine ⟨q, mem_rangeDown.2 ⟨hq1, hq2⟩, ?_⟩
      rw [List.mem_map]
      exact ⟨iso, List.mem_range.2 (Nat.lt_succ_iff.2 hiso), rfl⟩
  · intro x hx r hr
    simp only [removePrecursorPeak, massDiffMask] at hx
    rw [applyMask_map_self] at hx
    have hfx := List.of_mem_filter hx
    rw [List.all_eq_true] at hfx
    have := hfx r hr
    rw [decide_eq_true_eq] at this
    have hda : ("Da" == "Da") = true := rfl
    rw [hda, if_pos rfl] at this
    linarith [this]

/-- Witness for C4: a charge-1 spectrum with tolerance 3/2. -/
theorem removePrecursorPeak_da_sound_witness :
    (1 : ℤ) ≤ (Spectrum.mk 0 1 500 "a" 1 0 [100, 200] [5, 6]).precursor_charge ∧
    ((∀ r : ℚ, r ∈ removeMzList (Spectrum.mk 0 1 500 "a" 1 0 [100, 200] [5, 6]) 0 ↔
      ∃ q : ℤ, 1 ≤ q ∧ q ≤ (Spectrum.mk 0 1 500 "a" 1 0 [100, 200] [5, 6]).precursor_charge ∧
        ∃ iso : ℕ, iso ≤ 0 ∧
        r = (((Spectrum.mk 0 1 500 "a" 1 0 [100, 200] [5, 6]).precursor_mz - adductMass) *
          ((Spectrum.mk 0 1 500 "a" 1 0 [100, 200] [5, 6]).precursor_charge : ℚ) +
          (iso : ℚ) * cMassDiff) / (q : ℚ) + adductMass) ∧
    ∀ x ∈ (removePrecursorPeak (Spectrum.mk 0 1 500 "a" 1 0 [100, 200] [5, 6]) (3/2) "Da" 0).mz,
      ∀ r ∈ removeMzList (Spectrum.mk 0 1 500 "a" 1 0 [100, 200] [5, 6]) 0,
        ¬ |r - x| ≤ 3/2) :=
  ⟨by decide,
    removePrecursorPeak_da_sound (Spectrum.mk 0 1 500 "a" 1 0 [100, 200] [5, 6])
      (3/2) 0 (by decide)⟩

/-- C10: for a non-positive observed charge the removal m/z list is empty
(`range(charge, 0, -1)` is empty), the mask is all-true, and
`_remove_precursor_peak` returns both peak arrays unchanged. -/
theorem removePrecursorPeak_nonpos_charge_identity (s : Spectrum) (tol : ℚ)
    (mode : String) (isotope : ℕ) (hc : s.precursor_charge ≤ 0)
    (hlen : s.mz.length = s.intensity.length) :
    removeMzList s isotope = [] ∧
    massDiffMask s.mz (removeMzList s isotope) tol (mode == "Da") =
      List.replicate s.mz.length true ∧
    (removePrecursorPeak s tol mode isotope).mz = s.mz ∧
    (removePrecursorPeak s tol mode isotope).intensity = s.intensity := by
  have h1 : removeMzList s isotope = [] := by
    unfold removeMzList rangeDown
    rw [if_pos hc]
    rfl
  have h2 : massDiffMask s.mz (removeMzList s isotope) tol (mode == "Da") =
      List.replicate s.mz.length true := by
    unfold massDiffMask
    rw [h1]
    exact List.map_const' s.mz true
  refine ⟨h1, h2, ?_, ?_⟩
  · show applyMask s.mz (massDiffMask s.mz (removeMzList s isotope) tol _) = s.mz
    rw [h2, applyMask_replicate_true]
  · show applyMask s.intensity (massDiffMask s.mz (removeMzList s isotope) tol _) =
      s.intensity
    rw [h2, hlen, applyMask_replicate_true]

/-- Witness for C10 at a charge-0 spectrum. -/
theorem removePrecursorPeak_nonpos_charge_identity_witness :
    (Spectrum.mk 0 0 500 "a" 1 0 [100, 200] [5, 6]).precursor_charge ≤ 0 ∧
    (removePrecursorPeak (Spectrum.mk 0 0 500 "a" 1 0 [100, 200] [5, 6])
      (3/2) "Da" 0).mz = [100, 200] :=
  ⟨by decide,
    (removePrecursorPeak_nonpos_charge_identity
      (Spectrum.mk 0 0 500 "a" 1 0 [100, 200] [5, 6]) (3/2) "Da" 0
      (by decide) (by decide)).2.2.1⟩

/-- C2: for every raw spectrum with aligned non-negative peak arrays that
survives the full preprocessing pipeline with `max_peaks_used = k`, the
output mz and intensity arrays both have length exactly `k`; padding only
appends (the filtered mz array is an unmodified prefix, extended by `-1`
sentinels, never truncated); and an entry of the output mz array equals
`-1` exactly when the intensity entry at the same position equals `-1`. -/
theorem processOne_padding_invariant (cfg : Config) (s t : Spectrum)
    (s' : ProcSpectrum) (k : ℕ)
    (hk : cfg.max_peaks_used = some k)
    (hlen : s.mz.length = s.intensity.length)
    (hmz : ∀ x ∈ s.mz, 0 ≤ x)
    (hint : ∀ x ∈ s.intensity, 0 ≤ x)
    (hq : processOneQ cfg s = .ok (some t))
    (hrun : processOne cfg s = .ok (some s')) :
    s'.mz.length = k ∧ s'.intensity.length = k ∧
    s'.mz = t.mz ++ List.replicate (k - t.mz.length) (-1) ∧
    ∀ i : ℕ, (s'.mz.getD i 0 = -1 ↔ s'.intensity.getD i 0 = -1) := by
  have hfin : finishSpectrum cfg t = .ok s' := by
    simp only [processOne, hq] at hrun
    cases hf : finishSpectrum cfg t with
    | error e =>
      rw [hf] at hrun
      cases hrun
    | ok r =>
      rw [hf] at hrun
      simp only [Except.ok.injEq, Option.some.injEq] at hrun
      rw [hrun]
  obtain ⟨hinvt, _⟩ := processOneQ_inv ⟨hlen, hmz, hint⟩ hq
  obtain ⟨scaled, hsc, hlek, hm, hi⟩ := finishSpectrum_ok hk hfin
  obtain ⟨hsclen, hscnn⟩ := scaleIntensity_none_ok hsc
  have hNlen : (normIntensity scaled).length = t.mz.length := by
    rw [normIntensity_length, hsclen, ← hinvt.1]
  have hmzlen : s'.mz.length = k := by
    rw [hm, List.length_append, List.length_replicate]
    omega
  have hintlen : s'.intensity.length = k := by
    rw [hi, List.length_append, List.length_replicate, hNlen]
    omega
  refine ⟨hmzlen, hintlen, hm, fun i => ?_⟩
  by_cases h1 : i < t.mz.length
  · have hmzv : s'.mz.getD i 0 = t.mz.getD i 0 := by
      rw [hm]
      exact List.getD_append _ _ _ _ h1
    have hiv : s'.intensity.getD i 0 = (normIntensity scaled).getD i 0 := by
      rw [hi]
      exact List.getD_append _ _ _ _ (by rw [hNlen]; exact h1)
    have h2 : (0 : ℚ) ≤ t.mz.getD i 0 := hinvt.2.1 _ (getD_mem 0 h1)
    have h3 : (0 : ℝ) ≤ (normIntensity scaled).getD i 0 :=
      normIntensity_nonneg (hscnn hinvt.2.2) _
        (getD_mem 0 (by rw [hNlen]; exact h1))
    rw [hmzv, hiv]
    constructor <;> intro hEq
    · rw [hEq] at h2
      norm_num at h2
    · rw [hEq] at h3
      norm_num at h3
  · by_cases h2 : i < k
    · have hsub : i - t.mz.length < k - t.mz.length := by omega
      have hmzv : s'.mz.getD i 0 = -1 := by
        rw [hm, List.getD_append_right _ _ _ _ (le_of_not_lt h1)]
        exact replicate_getD hsub
      have hiv : s'.intensity.getD i 0 = -1 := by
        rw [hi, List.getD_append_right _ _ _ _
          (by rw [hNlen]; exact le_of_not_lt h1), hNlen]
        exact replicate_getD hsub
      rw [hmzv, hiv]
      exact iff_of_true rfl rfl
    · have hmzv : s'.mz.getD i 0 = 0 :=
        List.getD_eq_default _ _ (by omega)
      have hiv : s'.intensity.getD i 0 = 0 :=
        List.getD_eq_default _ _ (by omega)
      rw [hmzv, hiv]
      constructor <;> intro hEq <;> norm_num at hEq

/-- C6 (amended): a zero-norm intensity vector never reaches
normalization in any configuration where the intensity filter runs
(`min_intensity` or `max_peaks_used` set, and `max_peaks_used` not 0) and
`min_peaks ≥ 1`: an all-zero spectrum is already rejected by the filter
(its threshold is `min_intensity × 0 = 0` and no intensity is strictly
above it) followed by the validity check, so the pipeline returns the
"rejected" outcome before `_norm_intensity` is applied.  Normalization
itself has no zero-norm guard (see the companion counterexample for the
filter-disabled configuration, where the zero-norm vector is NOT
rejected). -/
theorem processOne_zero_intensity_rejected (cfg : Config) (s : Spectrum)
    (hp1 : 1 ≤ cfg.min_peaks)
    (hp2 : cfg.min_intensity ≠ none ∨ cfg.max_peaks_used ≠ none)
    (hp3 : cfg.max_peaks_used ≠ some 0)
    (hmzne : s.mz ≠ [])
    (hlen : s.mz.length = s.intensity.length)
    (hz : ∀ x ∈ s.intensity, x = 0) :
    processOne cfg s = .ok none := by
  have hfb : (cfg.min_intensity.isSome ||
      cfg.max_peaks_used.isSome) = true := by
    rcases hp2 with h | h
    · cases hmi : cfg.min_intensity with
      | none => exact absurd hmi h
      | some v => simp [hmi]
    · cases hmp : cfg.max_peaks_used with
      | none => exact absurd hmp h
      | some v => simp [hmp]
  have hmain : ∀ s2 : Spectrum, s2.mz.length = s2.intensity.length →
      (∀ x ∈ s2.intensity, x = 0) →
      checkSpectrumValid s2.mz cfg.min_peaks cfg.min_mz_range = true →
      (if cfg.min_intensity.isSome || cfg.max_peaks_used.isSome then
        match filterIntensity s2 (cfg.min_intensity.getD 0)
            cfg.max_peaks_used with
        | .error e => .error e
        | .ok s3 =>
          if checkSpectrumValid s3.mz cfg.min_peaks cfg.min_mz_range
          then .ok (some s3) else .ok none
      else .ok (some s2)) =
        (Except.ok none : Except String (Option Spectrum)) := by
    intro s2 hlen2 hz2 hv2
    rw [if_pos hfb]
    have hmzlen2 : 1 ≤ s2.mz.length := by
      unfold checkSpectrumValid at hv2
      rw [Bool.and_eq_true, decide_eq_true_eq] at hv2
      have h1 := hv2.1
      omega
    have hintne : s2.intensity ≠ [] := by
      intro hcon
      have h0 : s2.intensity.length = 0 := by rw [hcon]; rfl
      omega
    have hk1 : 1 ≤ cfg.max_peaks_used.getD s2.intensity.length := by
      cases hmp : cfg.max_peaks_used with
      | none =>
        simpa using (by omega : 1 ≤ s2.intensity.length)
      | some k0 =>
        simp only [Option.getD_some]
        rcases Nat.eq_zero_or_pos k0 with rfl | h
        · exact absurd hmp hp3
        · exact h
    obtain ⟨s3, hfi, hmz3⟩ := filterIntensity_zero_vector
      (c := cfg.min_intensity.getD 0) hlen2 hintne hk1 hz2
    simp only [hfi, hmz3, checkSpectrumValid_nil cfg.min_mz_range hp1]
    simp
  suffices hq : processOneQ cfg s = .ok none by simp only [processOne, hq]
  obtain ⟨s1, hset⟩ := setMzRange_ne_nil_ok s cfg.min_mz cfg.max_mz hmzne
  have hrel := setMzRange_ok_inv hset
  have hlen1 : s1.mz.length = s1.intensity.length := by
    rcases hrel with rfl | ⟨m, hm, hi⟩
    · exact hlen
    · rw [hm, hi]
      exact applyMask_length_eq hlen
  have hz1 : ∀ x ∈ s1.intensity, x = 0 := by
    rcases hrel with rfl | ⟨m, hm, hi⟩
    · exact hz
    · rw [hi]
      exact fun x hx => hz x (mem_of_mem_applyMask hx)
  simp only [processOneQ, hset]
  by_cases hv1 : checkSpectrumValid s1.mz cfg.min_peaks cfg.min_mz_range
  · rw [if_neg (not_not_intro hv1)]
    cases htol : cfg.remove_precursor_tol with
    | none =>
      simp only
      exact hmain s1 hlen1 hz1 hv1
    | some tol =>
      simp only
      by_cases hv2 : checkSpectrumValid
          (removePrecursorPeak s1 tol "Da" 0).mz cfg.min_peaks
          cfg.min_mz_range
      · rw [if_pos hv2]
        have hrmz : (removePrecursorPeak s1 tol "Da" 0).mz =
            applyMask s1.mz (massDiffMask s1.mz (removeMzList s1 0) tol
              ("Da" == "Da")) := rfl
        have hrint : (removePrecursorPeak s1 tol "Da" 0).intensity =
            applyMask s1.intensity (massDiffMask s1.mz (removeMzList s1 0)
              tol ("Da" == "Da")) := rfl
        refine hmain _ ?_ ?_ hv2
        · rw [hrmz, hrint]
          exact applyMask_length_eq hlen1
        · rw [hrint]
          exact fun x hx => hz1 x (mem_of_mem_applyMask hx)
      · rw [if_neg hv2]
  · rw [if_pos hv1]

/-- Witness for C6 (amended): a two-zero-intensity spectrum with the
intensity filter enabled is rejected. -/
theorem processOne_zero_intensity_rejected_witness :
    processOne
      (Config.mk [] 1 0 1 none none none (some (1/100)) (some 50)
        (some "off") 1 "ckp")
      (Spectrum.mk 0 1 500 "a" 1 0 [100, 200] [0, 0]) = .ok none := by
  refine processOne_zero_intensity_rejected _ _ (by norm_num)
    (Or.inl (by simp)) (by simp) (by simp) rfl ?_
  intro x hx
  simp at hx
  rcases hx with rfl | rfl <;> rfl

/-- C6 counterexample: in the configuration where the intensity filter is
disabled (`min_intensity` and `max_peaks_used` both unset), a spectrum
whose intensity vector is all-zero (Euclidean norm zero) passes every
validity check and REACHES normalization, which divides by zero with no
guard; the spectrum is not rejected — the pipeline instead aborts with a
`TypeError` at the padding step (`max_peaks_used - len` on `None`), so
the claimed "rejected rather than undefined result or fatal error"
behaviour does not hold. -/
theorem processOne_zero_norm_not_rejected :
    ((([0, 0] : List ℚ).map (fun y : ℚ => y ^ 2)).sum = 0) ∧
    processOne
      (Config.mk [] 2 0 1 none none none none none (some "off") 1 "ckp")
      (Spectrum.mk 0 1 500 "a" 1 0 [100, 200] [0, 0]) =
      .error "TypeError: unsupported operand type(s) for -" := by
  constructor
  · norm_num
  · have hq : processOneQ
        (Config.mk [] 2 0 1 none none none none none (some "off") 1 "ckp")
        (Spectrum.mk 0 1 500 "a" 1 0 [100, 200] [0, 0]) =
        .ok (some (Spectrum.mk 0 1 500 "a" 1 0 [100, 200] [0, 0])) := by
      norm_num [processOneQ, setMzRange, checkSpectrumValid]
    have hfin : finishSpectrum
        (Config.mk [] 2 0 1 none none none none none (some "off") 1 "ckp")
        (Spectrum.mk 0 1 500 "a" 1 0 [100, 200] [0, 0]) =
        .error "TypeError: unsupported operand type(s) for -" := by
      norm_num [finishSpectrum, scaleIntensity,
        (by decide : ("off" : String) ≠ "root"),
        (by decide : ("off" : String) ≠ "log"),
        (by decide : ("off" : String) ≠ "rank")]
    simp only [processOne, hq, hfin]

/-- Witness for C2: the one-peak spectrum survives, is padded to width 2,
and position 1 holds the `-1` sentinel in both arrays. -/
theorem processOne_padding_invariant_witness :
    procC2.mz.length = 2 ∧ procC2.intensity.length = 2 ∧
    (procC2.mz.getD 1 0 = -1 ↔ procC2.intensity.getD 1 0 = -1) := by
  have hr1 : List.range 1 = [0] := rfl
  have hq : processOneQ cfgC2 specC2 = .ok (some specC2) := by
    norm_num [processOneQ, cfgC2, specC2, setMzRange, getMzMask, applyMask,
      checkSpectrumValid, filterIntensity, getIntensityMask, topKIdx,
      List.max?, hr1]
  have hfin : finishSpectrum cfgC2 specC2 = .ok procC2 := by
    norm_num [finishSpectrum, cfgC2, specC2, procC2, scaleIntensity,
      normIntensity, precursorToInterval, pyRound, hydrogenMass, Int.fdiv,
      hr1, (by decide : ("off" : String) ≠ "root"),
      (by decide : ("off" : String) ≠ "log"),
      (by decide : ("off" : String) ≠ "rank")]
  have hrun : processOne cfgC2 specC2 = .ok (some procC2) := by
    simp only [processOne, hq, hfin]
  have hthm := processOne_padding_invariant cfgC2 specC2 specC2 procC2 2
    rfl rfl (by norm_num [specC2]) (by norm_num [specC2]) hq hrun
  exact ⟨hthm.1, hthm.2.1, hthm.2.2.2 1⟩

/-- C3 (amended): intensity filtering retains at most `max_num_peaks`
peaks, drawn from the top-`k` selection by descending intensity, with the
threshold computed from the maximum within that selection; a selected
peak is KEPT exactly when its intensity is strictly above the threshold
(so a peak exactly at the threshold is dropped, not kept); consequently,
for `min_intensity ≥ 0`, every retained intensity is at least
`min_intensity × (max retained intensity)`. -/
theorem getIntensityMask_filter_props (v : List ℚ) (c : ℚ) (k : ℕ)
    (mask : List Bool) (hc : 0 ≤ c)
    (h : getIntensityMask v c k = .ok mask) :
    (applyMask v mask).length ≤ k ∧
    (∀ m, ((topKIdx v k).map (fun i => v.getD i 0)).max? = some m →
      mask = (List.range v.length).map (fun i =>
        decide (i ∈ topKIdx v k ∧ c * m < v.getD i 0))) ∧
    (∀ M, (applyMask v mask).max? = some M →
      ∀ x ∈ applyMask v mask, c * M ≤ x) := by
  obtain ⟨m, hm, hmask⟩ := getIntensityMask_ok h
  refine ⟨?_, ?_, ?_⟩
  · rw [hmask, applyMask_range_map_length]
    refine le_trans (length_filter_le_of_mem_nodup ?_ (List.nodup_range _))
      (topKIdx_length_le v k)
    intro i hi
    rw [decide_eq_true_eq] at hi
    exact hi.1
  · intro m' hm'
    rw [hm] at hm'
    obtain rfl : m = m' := Option.some.inj hm'
    exact hmask
  · intro M hM x hx
    rw [hmask] at hx hM
    obtain ⟨i, hget, hfi⟩ := applyMask_range_map_mem hx
    rw [decide_eq_true_eq] at hfi
    have hxval : v.getD i 0 = x := by
      rw [List.getD_eq_getD_get?, hget]
      rfl
    obtain ⟨j, hgetj, hfj⟩ := applyMask_range_map_mem (max?_mem_rat hM)
    rw [decide_eq_true_eq] at hfj
    have hMval : v.getD j 0 = M := by
      rw [List.getD_eq_getD_get?, hgetj]
      rfl
    have hMtop : M ∈ (topKIdx v k).map (fun i => v.getD i 0) :=
      List.mem_map.2 ⟨j, hfj.1, hMval⟩
    have hMle : c * M ≤ c * m :=
      mul_le_mul_of_nonneg_left (le_of_max?_eq_some hm hMtop) hc
    rw [← hxval]
    exact le_trans hMle (le_of_lt hfi.2)

/-- Witness for C3 (amended): intensities `[4, 1]`, `min_intensity = 1/2`,
`max_peaks_used = 5`; the threshold is 2, peak 4 is kept, peak 1 is
dropped. -/
theorem getIntensityMask_filter_props_witness :
    (0 : ℚ) ≤ 1/2 ∧
    getIntensityMask [4, 1] (1/2) 5 = .ok [true, false] ∧
    (applyMask [(4 : ℚ), 1] [true, false]).length ≤ 5 ∧
    (∀ M, (applyMask [(4 : ℚ), 1] [true, false]).max? = some M →
      ∀ x ∈ applyMask [(4 : ℚ), 1] [true, false], (1/2) * M ≤ x) := by
  have hmask : getIntensityMask [4, 1] (1/2) 5 = .ok [true, false] := by
    simp [getIntensityMask, topKIdx, List.range_succ]
    norm_num
  have hprops := getIntensityMask_filter_props [4, 1] (1/2) 5 [true, false]
    (by norm_num) hmask
  exact ⟨by norm_num, hmask, hprops.1, hprops.2.2⟩

/-- C3 counterexample: with intensities `[2, 1]`, `min_intensity = 1/2`
and `max_peaks_used = 2`, the selection is both peaks and the threshold
is `(1/2) × 2 = 1`; the peak of intensity 1 is NOT below the threshold
(`¬ 1 < 1`), yet the mask drops it and only the peak of intensity 2 is
retained — refuting "a peak is dropped exactly when its intensity is
below the threshold": the code keeps a selected peak only when it is
strictly above the threshold. -/
theorem getIntensityMask_boundary_counterexample :
    getIntensityMask [2, 1] (1/2) 2 = .ok [true, false] ∧
    applyMask [(2 : ℚ), 1] [true, false] = [2] ∧
    ¬ ((1 : ℚ) < (1/2) * 2) := by
  refine ⟨?_, rfl, by norm_num⟩
  simp [getIntensityMask, topKIdx, List.range_succ]

/-- C1 (code evaluated at the failing input): `sort_spectra_meta_data`
computes `np.lexsort((precursor_charge, bucket))`, and numpy's `lexsort`
sorts by the LAST key of the tuple first, so the rows
`[(charge 2, bucket 1), (charge 1, bucket 2)]` are already in
bucket-primary order and come back unchanged — violating the claimed
ascending (charge, bucket) order with charge as primary key, which would
have produced the reversed row order.  Both dense arrays are permuted by
the same (here identity) permutation. -/
theorem sortSpectraMetaData_failing_input :
    (sortSpectraMetaData
      [MetaRow.mk 1 2 500 "a" 1 0, MetaRow.mk 2 1 400 "b" 2 0]
      (NpArray.d2 [[(5 : ℚ)], [6]]) (NpArray.d2 [[(7 : ℚ)], [8]])).1 =
      [MetaRow.mk 1 2 500 "a" 1 0, MetaRow.mk 2 1 400 "b" 2 0] ∧
    (sortSpectraMetaData
      [MetaRow.mk 1 2 500 "a" 1 0, MetaRow.mk 2 1 400 "b" 2 0]
      (NpArray.d2 [[(5 : ℚ)], [6]]) (NpArray.d2 [[(7 : ℚ)], [8]])).2.1 =
      NpArray.d2 [[(5 : ℚ)], [6]] ∧
    chargeBucketSorted
      [MetaRow.mk 1 2 500 "a" 1 0, MetaRow.mk 2 1 400 "b" 2 0] = false ∧
    chargeBucketSorted
      [MetaRow.mk 2 1 400 "b" 2 0, MetaRow.mk 1 2 500 "a" 1 0] = true :=
  ⟨by decide, by decide, by decide, by decide⟩

/-- C9 (amended): with zero input files the aggregation returns the empty
dataset when the allowed-charge set is empty, but raises an `IndexError`
when the allowed-charge set is non-empty, because the concatenated peak
matrix of zero rows is 1-dimensional and the 2-D row selection
`spectra_mz[valid_charge_idx, :]` of the charge filter fails on it. -/
theorem loadProcessSpectraParallel_zero_files (cfg : Config) :
    (cfg.cluster_charges = [] →
      loadProcessSpectraParallel cfg [] =
        .ok ([], NpArray.d1 [], NpArray.d1 [])) ∧
    (cfg.cluster_charges ≠ [] →
      loadProcessSpectraParallel cfg [] =
        .error "IndexError: too many indices for array") := by
  obtain ⟨cc, f2, f3, f4, f5, f6, f7, f8, f9, f10, f11, f12⟩ := cfg
  cases cc with
  | nil => exact ⟨fun _ => rfl, fun h => absurd rfl h⟩
  | cons a l => exact ⟨fun h => absurd h (List.cons_ne_nil a l), fun _ => rfl⟩

/-- Witness for C9 (amended) at a concrete configuration with an empty
allowed-charge set. -/
theorem loadProcessSpectraParallel_zero_files_witness :
    loadProcessSpectraParallel
      (Config.mk [] 5 250 1 (some 101) (some 1500) (some (3/2))
        (some (1/100)) (some 50) (some "off") (10005079/10000000) "ckp")
      [] = .ok ([], NpArray.d1 [], NpArray.d1 []) :=
  (loadProcessSpectraParallel_zero_files _).1 rfl

/-- C9 counterexample: zero matching files with the configured
allowed-charge set `{2}` non-empty does NOT complete with an empty
dataset — the aggregation raises an `IndexError` instead. -/
theorem loadProcessSpectraParallel_zero_files_raises :
    loadProcessSpectraParallel
      (Config.mk [2] 5 250 1 (some 101) (some 1500) (some (3/2))
        (some (1/100)) (some 50) (some "off") (10005079/10000000) "ckp")
      [] = .error "IndexError: too many indices for array" := rfl

/-- C7 counterexample: with only the metadata half present on disk,
`load_checkpoint` logs "Incomplete checkpoints!" but still returns the
present half (paired with `None`) to the caller, contradicting the claim
that the present half is never handed back. -/
theorem loadCheckpoint_partial_half_returned :
    loadCheckpoint "c"
      [("c_meta.ckp", FileData.parquet [MetaRow.mk 1 2 500 "a" 1 0])] =
      .ok (some [MetaRow.mk 1 2 500 "a" 1 0], none,
        "Incomplete checkpoints!") ∧
    (some [MetaRow.mk 1 2 500 "a" 1 0] ≠ (none : Option (List MetaRow))) :=
  ⟨rfl, by simp⟩

/-- C7 (amended): restore loads each half independently; when either half
is missing it reports "Incomplete checkpoints!" (success is logged only
when both halves loaded), but it still returns the pair of independently
loaded halves — the present half is handed back to the caller, which must
itself treat the pair as no checkpoint. -/
theorem loadCheckpoint_incomplete_behavior (ckpt : String) (st : Store)
    (rows : List MetaRow) (arr : Hvs) :
    (st.lookup (ckpt ++ "_meta.ckp") = some (.parquet rows) →
      st.lookup (ckpt ++ "_hvs.ckp") = none →
      loadCheckpoint ckpt st =
        .ok (some rows, none, "Incomplete checkpoints!")) ∧
    (st.lookup (ckpt ++ "_meta.ckp") = none →
      st.lookup (ckpt ++ "_hvs.ckp") = some (.npy arr) →
      loadCheckpoint ckpt st =
        .ok (none, some arr, "Incomplete checkpoints!")) := by
  constructor <;> intro h1 h2 <;> simp only [loadCheckpoint, h1, h2] <;> rfl

/-- Witness for C7 (amended) at a concrete one-file store. -/
theorem loadCheckpoint_incomplete_behavior_witness :
    loadCheckpoint "c"
      [("c_meta.ckp", FileData.parquet [MetaRow.mk 3 1 400 "b" 2 0])] =
      .ok (some [MetaRow.mk 3 1 400 "b" 2 0], none,
        "Incomplete checkpoints!") :=
  (loadCheckpoint_incomplete_behavior "c"
    [("c_meta.ckp", FileData.parquet [MetaRow.mk 3 1 400 "b" 2 0])]
    [MetaRow.mk 3 1 400 "b" 2 0] []).1 rfl rfl

/-- C8: restoring immediately after saving returns exactly the saved
metadata table and hvs array (and logs success), for any starting file
system state and any non-empty dataset. -/
theorem saveCheckpoint_loadCheckpoint_roundtrip (spectraMeta : List MetaRow)
    (spectraHvs : Hvs) (ckpt : String) (st : Store)
    (hne : spectraMeta ≠ []) :
    loadCheckpoint ckpt (saveCheckpoint spectraMeta spectraHvs ckpt st) =
      .ok (some spectraMeta, some spectraHvs,
        "Successfully restored checkpoints!") := by
  have hMN : ckpt ++ "_meta" ++ ".ckp" = ckpt ++ "_meta.ckp" := by
    rw [String.append_assoc]
    rfl
  have hHN : ckpt ++ "_hvs" ++ ".ckp" = ckpt ++ "_hvs.ckp" := by
    rw [String.append_assoc]
    rfl
  have hne1 : ckpt ++ "_hvs.ckp" ≠ ckpt ++ "_meta.ckp" := by
    intro h
    have h2 := congrArg String.data h
    simp only [String.data_append] at h2
    exact absurd (List.append_cancel_left h2) (by decide)
  have hb1 : ((ckpt ++ "_meta.ckp") == (ckpt ++ "_hvs.ckp")) = false :=
    beq_eq_false_iff_ne.2 (fun h => hne1 h.symm)
  have hb2 : ((ckpt ++ "_hvs.ckp") == (ckpt ++ "_hvs.ckp")) = true :=
    beq_self_eq_true _
  have hb3 : ((ckpt ++ "_meta.ckp") == (ckpt ++ "_meta.ckp")) = true :=
    beq_self_eq_true _
  have hb4 : ((ckpt ++ "_hvs.ckp") == (ckpt ++ "_meta.ckp")) = false :=
    beq_eq_false_iff_ne.2 hne1
  simp only [loadCheckpoint, saveCheckpoint, storeWrite, hMN, hHN,
    List.lookup_cons, List.filter_cons, hb1, hb2, hb3, hb4,
    Bool.not_false, Bool.not_true, if_true]
  rfl

/-- Witness for C8 at a concrete non-empty dataset and empty store. -/
theorem saveCheckpoint_loadCheckpoint_roundtrip_witness :
    loadCheckpoint "c"
      (saveCheckpoint [MetaRow.mk 1 2 500 "a" 1 0] [[3]] "c" []) =
      .ok (some [MetaRow.mk 1 2 500 "a" 1 0], some [[3]],
        "Successfully restored checkpoints!") :=
  saveCheckpoint_loadCheckpoint_roundtrip [MetaRow.mk 1 2 500 "a" 1 0]
    [[3]] "c" [] (fun h => nomatch h)

end HyperSpec
